import Mathlib

/-!
Shallow embedding of the funding-rate arbitrage / hedge engine
(`FundingRateMonitor` and its exchange adapters, and the `HedgeControls`
widget) together with proofs about the claims of its specification.

Monetary and rate values are embedded as `ℚ`; the source uses decimal.js
with `rounding: ROUND_DOWN`, and every explicit `toDecimalPlaces(8)` call
is embedded as truncation toward zero at eight decimal places
(`truncDp8`).  JavaScript objects used as string-keyed maps are embedded
as association lists in insertion order (`alSet`, `alGet`).  JavaScript
runtime failures that the embedded code paths can hit are made explicit
as `JsError` values: `thrown` for `throw new Error(msg)`, `typeError`
for a property access on `undefined`, and `invalidArgument` for a
decimal.js operation whose argument is not a number, a string or a
`Decimal` (in particular, an un-awaited `Promise`).
-/

namespace CryptoHedge

/-- JavaScript runtime errors reachable in the embedded code paths. -/
inductive JsError
  | thrown (msg : String)
  | typeError
  | invalidArgument
  deriving DecidableEq, Repr

/-- `Decimal.min(a, b)` (written with an explicit comparison so that it
evaluates by kernel reduction). -/
def decMin (a b : ℚ) : ℚ :=
  if a ≤ b then a else b

/-- `rate.abs()` (written with an explicit comparison so that it
evaluates by kernel reduction). -/
def decAbs (x : ℚ) : ℚ :=
  if x < 0 then -x else x

/-- decimal.js `toDecimalPlaces(8)` under the configured `ROUND_DOWN`
(truncation toward zero) rounding mode. -/
def truncDp8 (x : ℚ) : ℚ :=
  if 0 ≤ x then ((⌊x * 100000000⌋ : ℤ) : ℚ) / 100000000
  else -(((⌊-x * 100000000⌋ : ℤ) : ℚ) / 100000000)

/-- Set a property on a JavaScript object embedded as an association
list: overwrite in place when the key is present (JavaScript objects
hold each key at most once, so the first occurrence is the only one),
append otherwise. -/
def alSet {α : Type} : List (String × α) → String → α → List (String × α)
  | [], k, v => [(k, v)]
  | p :: ps, k, v => if p.1 == k then (k, v) :: ps else p :: alSet ps k v

/-- Read a property of a JavaScript object embedded as an association
list; `none` plays the role of `undefined`. -/
def alGet {α : Type} (l : List (String × α)) (k : String) : Option α :=
  (l.find? (fun p => p.1 == k)).map (fun p => p.2)

/-! ## FundingRateMonitor: state and configuration -/

/-- The three alert thresholds of `FundingRateMonitor.config.thresholds`. -/
structure Thresholds where
  warning : ℚ
  critical : ℚ
  arbitrage : ℚ
  deriving DecidableEq

/-- The default thresholds: warning 0.0005, critical 0.001, arbitrage 0.002. -/
def defaultThresholds : Thresholds :=
  { warning := 5/10000, critical := 1/1000, arbitrage := 2/1000 }

/-- One element of the `rates` array handed to `_processRates`
(timestamps play no role in any claim and are omitted). -/
structure RateInfo where
  symbol : String
  rate : ℚ
  deriving DecidableEq

/-- One entry pushed onto `this.history` by `_processRates`. -/
structure HistEntry where
  exchange : String
  symbol : String
  rate : ℚ
  deriving DecidableEq

/-- The heterogeneous values stored in `this.positionStatus[key]`:
the strings `'opening'` and `'failed'`, or the object built on a
successful open.  Every stored value is truthy in JavaScript. -/
inductive PosStatus
  | opening
  | failed
  | opened (longExchange shortExchange : String) (longQty shortQty : ℚ)
  deriving DecidableEq

/-- The mutable state of a `FundingRateMonitor` instance:
`this.rates`, `this.history`, `this.alertCounts`, `this.positionStatus`. -/
structure MonitorState where
  rates : List (String × List (String × ℚ))
  history : List HistEntry
  alertCounts : List (String × ℤ)
  positionStatus : List (String × PosStatus)
  deriving DecidableEq

/-- The state right after the constructor: all four stores empty. -/
def emptyMonitorState : MonitorState :=
  { rates := [], history := [], alertCounts := [], positionStatus := [] }

/-- Alert level of `_triggerAlert`. -/
inductive AlertLevel
  | warning
  | critical
  deriving DecidableEq

/-- An alert emitted by `_triggerAlert`. -/
structure Alert where
  level : AlertLevel
  exchange : String
  symbol : String
  rate : ℚ
  deriving DecidableEq

/-- The `alertKey` string built in `_processRates`. -/
def alertKey (exchange symbol : String) : String :=
  exchange ++ ":" ++ symbol

/-- `this.alertCounts[alertKey] || 0`: the counter for a key, with an
absent key read as 0. -/
def countOf (st : MonitorState) (k : String) : ℤ :=
  (alGet st.alertCounts k).getD 0

/-! ## `_processRates` -/

/-- The body of the `rates.forEach` loop of `_processRates` for a single
`rateInfo`: store the latest rate, push onto history, trigger
warning/critical alerts, and update the alert counter.  The accumulator
carries the monitor state, the alerts emitted so far in this call, and
the `hasCritical` flag. -/
def processOne (cfg : Thresholds) (exchange : String)
    (acc : MonitorState × List Alert × Bool) (info : RateInfo) :
    MonitorState × List Alert × Bool :=
  let st := acc.1
  let exRates := (alGet st.rates exchange).getD []
  let rates1 := alSet st.rates exchange (alSet exRates info.symbol info.rate)
  let history1 := st.history ++ [⟨exchange, info.symbol, info.rate⟩]
  let absRate := decAbs info.rate
  let alerts1 :=
    if absRate > cfg.critical then
      acc.2.1 ++ [⟨AlertLevel.critical, exchange, info.symbol, info.rate⟩]
    else if absRate > cfg.warning then
      acc.2.1 ++ [⟨AlertLevel.warning, exchange, info.symbol, info.rate⟩]
    else acc.2.1
  let hasCritical1 := acc.2.2 || decide (absRate > cfg.critical)
  let key := alertKey exchange info.symbol
  let counts1 :=
    if absRate > cfg.warning then alSet st.alertCounts key (countOf st key + 1)
    else alSet st.alertCounts key 0
  ({ st with rates := rates1, history := history1, alertCounts := counts1 },
   alerts1, hasCritical1)

/-- `_processRates(exchange, rates)`: fold `processOne` over the list of
rate observations.  Returns the new state, the alerts emitted during the
call, and the `hasCritical` flag. -/
def processRates (cfg : Thresholds) (exchange : String)
    (infos : List RateInfo) (st : MonitorState) :
    MonitorState × List Alert × Bool :=
  infos.foldl (processOne cfg exchange) (st, [], false)

/-! ## Arbitrage scan -/

/-- `_findMaxRate(rates)`: reduce over `Object.entries(rates)` starting
from `['', -Infinity]`, keeping the entry whenever `rate.gt(max[1])`.
The `-Infinity` start value is embedded as `none`, which every rate
exceeds. -/
def findMaxRate (rates : List (String × ℚ)) : String × Option ℚ :=
  rates.foldl
    (fun mx er =>
      match mx.2 with
      | none => (er.1, some er.2)
      | some m => if er.2 > m then (er.1, some er.2) else mx)
    ("", none)

/-- `_findMinRate(rates)`: reduce starting from `['', Infinity]`,
keeping the entry whenever `rate.lt(min[1])`. -/
def findMinRate (rates : List (String × ℚ)) : String × Option ℚ :=
  rates.foldl
    (fun mn er =>
      match mn.2 with
      | none => (er.1, some er.2)
      | some m => if er.2 < m then (er.1, some er.2) else mn)
    ("", none)

/-- The alert object built by `_triggerArbitrageAlert(symbol,
longExchange, longRate, shortExchange, shortRate)`; its `spread` field
is `longRate.sub(shortRate)`. -/
structure ArbAlert where
  symbol : String
  longExchange : String
  longRate : ℚ
  shortExchange : String
  shortRate : ℚ
  spread : ℚ
  deriving DecidableEq

/-- The per-symbol body of `_checkArbitrageOpportunities`: with the
collected `rates` object (one entry per venue holding a stored rate for
the symbol), require at least two entries, find the max and min venue,
and when `max_rate − min_rate` exceeds the arbitrage threshold call
`_triggerArbitrageAlert(symbol, maxExchange, maxRate, minExchange,
minRate)` — so the max-rate venue is bound to the `longExchange`
parameter and the min-rate venue to `shortExchange`. -/
def checkArbitrageForSymbol (cfg : Thresholds) (symbol : String)
    (rates : List (String × ℚ)) : Option ArbAlert :=
  if 2 ≤ rates.length then
    match (findMaxRate rates).2, (findMinRate rates).2 with
    | some maxRate, some minRate =>
      if maxRate - minRate > cfg.arbitrage then
        some { symbol := symbol
               longExchange := (findMaxRate rates).1
               longRate := maxRate
               shortExchange := (findMinRate rates).1
               shortRate := minRate
               spread := maxRate - minRate }
      else none
    | _, _ => none
  else none

/-- The funding-rate component of `_calculateHedgePnl` per unit quantity
and unit time: `shortRate.sub(longRate)` for the venues the hedge is
long and short on. -/
def hedgeFundingPnlRate (longRate shortRate : ℚ) : ℚ :=
  shortRate - longRate

/-! ## `_executeHedge` (FundingRateMonitor) -/

/-- The side argument of `ExchangeAdapter.createOrder`. -/
inductive OrderSide
  | buy
  | sell
  deriving DecidableEq

/-- Per-venue oracle for the adapter calls `_executeHedge` makes:
`getBalance().available`, `getPrice(symbol)`, and whether
`createOrder(symbol, side, qty)` resolves or rejects. -/
structure VenueEnv where
  available : ℚ
  price : String → ℚ
  orderOk : String → OrderSide → ℚ → Bool

/-- The set of venue adapters, by name. -/
def Env : Type := String → VenueEnv

/-- A record of one adapter call made during a hedge execution. -/
inductive AdapterCall
  | getBalance (venue : String)
  | getAvailableBalance (venue : String)
  | getPrice (venue symbol : String)
  | createOrder (venue symbol : String) (side : OrderSide) (qty : ℚ)
  | closePosition (venue symbol : String)
  deriving DecidableEq

/-- The hedge key `` `${symbol}:${longExchange}:${shortExchange}` ``. -/
def hedgeKey (symbol longExchange shortExchange : String) : String :=
  symbol ++ ":" ++ longExchange ++ ":" ++ shortExchange

/-- `FundingRateMonitor._executeHedge(symbol, longExchange,
shortExchange)`.  Returns the new monitor state and the trace of adapter
calls made, in order.  Mirrors the source step by step:
if `this.positionStatus[key]` is truthy (any stored value), return at
once; otherwise store `'opening'`, fetch both balances, size the hedge
as `min(longBal.available, shortBal.available).mul('0.5')
.toDecimalPlaces(8)`, throw `可用资金不足` when that is `≤ 0` (caught by
the surrounding `try`, which stores `'failed'`), otherwise fetch both
prices, derive the two quantities with `toDecimalPlaces(8)`, submit the
buy on `longExchange` and the sell on `shortExchange` via `Promise.all`
(both orders are submitted; the call rejects if either leg rejects), and
store the opened record on success or `'failed'` on any rejection.  The
`catch` block only records `'failed'`: it makes no `closePosition` call
and no retry. -/
def executeHedge (env : Env) (st : MonitorState)
    (symbol longExchange shortExchange : String) :
    MonitorState × List AdapterCall :=
  let key := hedgeKey symbol longExchange shortExchange
  if (alGet st.positionStatus key).isSome then (st, [])
  else
    let st1 := { st with positionStatus := alSet st.positionStatus key .opening }
    let calls1 := [AdapterCall.getBalance longExchange,
                   AdapterCall.getBalance shortExchange]
    let maxSize :=
      truncDp8 (decMin (env longExchange).available (env shortExchange).available
        * (1/2))
    if maxSize ≤ 0 then
      ({ st1 with positionStatus := alSet st1.positionStatus key .failed },
       calls1)
    else
      let longPrice := (env longExchange).price symbol
      let shortPrice := (env shortExchange).price symbol
      let calls2 := calls1 ++ [AdapterCall.getPrice longExchange symbol,
                               AdapterCall.getPrice shortExchange symbol]
      let longQty := truncDp8 (maxSize / longPrice)
      let shortQty := truncDp8 (maxSize / shortPrice)
      let calls3 := calls2 ++
        [AdapterCall.createOrder longExchange symbol .buy longQty,
         AdapterCall.createOrder shortExchange symbol .sell shortQty]
      if (env longExchange).orderOk symbol .buy longQty &&
         (env shortExchange).orderOk symbol .sell shortQty then
        let openedRec := PosStatus.opened longExchange shortExchange longQty shortQty
        ({ st1 with positionStatus := alSet st1.positionStatus key openedRec },
         calls3)
      else
        ({ st1 with positionStatus := alSet st1.positionStatus key .failed },
         calls3)

/-! ## HedgeControls: positions, exposure and de-risking -/

/-- The side of a held position. -/
inductive PosSide
  | long
  | short
  deriving DecidableEq

/-- One position as returned by `getPositions()`. -/
structure PosData where
  side : PosSide
  size : ℚ
  markPrice : ℚ
  unrealizedPnl : ℚ
  deriving DecidableEq

/-- The nested map returned by `_getAllPositions`: venue name to
(symbol to position). -/
def PositionsByExchange : Type :=
  List (String × List (String × PosData))

/-- One element of the list built by `_flattenPositions`. -/
structure FlatPos where
  exchange : String
  symbol : String
  side : PosSide
  size : ℚ
  markPrice : ℚ
  unrealizedPnl : ℚ
  deriving DecidableEq

/-- `_flattenPositions(positionsByExchange)`. -/
def flattenPositions (positions : PositionsByExchange) : List FlatPos :=
  positions.foldl
    (fun acc ex =>
      acc ++ ex.2.map (fun p =>
        { exchange := ex.1, symbol := p.1, side := p.2.side,
          size := p.2.size, markPrice := p.2.markPrice,
          unrealizedPnl := p.2.unrealizedPnl }))
    []

/-- The `netExposure` accumulated by the two nested `forEach` loops of
`_calculateNetExposure`: `Σ (±1) × size × markPrice`, long positions
added, short positions subtracted. -/
def netPositionValue (positions : PositionsByExchange) : ℚ :=
  positions.foldl
    (fun acc ex =>
      ex.2.foldl
        (fun acc2 p =>
          let value := p.2.size * p.2.markPrice
          if p.2.side = PosSide.long then acc2 + value else acc2 - value)
        acc)
    0

/-- A decimal.js binary operation (`div` at `hedge_controls.js:168`,
`mul` at `hedge_controls.js:202`) whose argument is the value of
`this._getTotalPortfolioValue()` used without `await`: an `async`
function call yields a `Promise`, and decimal.js converts the argument
with `new Decimal(v)`, which throws `[DecimalError] Invalid argument`
for a `Promise` object.  The left operand is therefore discarded and
the operation throws. -/
def decimalOpOnPromise (_x : ℚ) : Except JsError ℚ :=
  .error .invalidArgument

/-- The value `_getTotalPortfolioValue` resolves to when it is awaited:
the sum of `getTotalBalance()` over all configured venues. -/
def totalPortfolioValue (balances : List ℚ) : ℚ :=
  balances.sum

/-- `_calculateNetExposure(positions)`: accumulate the net position
value, then return `netExposure.div(this._getTotalPortfolioValue())` —
the divisor is the un-awaited `Promise`, so the division throws. -/
def calculateNetExposure (positions : PositionsByExchange) :
    Except JsError ℚ :=
  decimalOpOnPromise (netPositionValue positions)

/-- Stable ascending insertion by `unrealizedPnl`, the effect of
`Array.prototype.sort((a, b) => a.unrealizedPnl - b.unrealizedPnl)`. -/
def insertByPnl (p : FlatPos) : List FlatPos → List FlatPos
  | [] => [p]
  | q :: qs =>
    if q.unrealizedPnl ≤ p.unrealizedPnl then q :: insertByPnl p qs
    else p :: q :: qs

/-- Sort a position list ascending by unrealized PnL (worst first). -/
def sortByPnl (l : List FlatPos) : List FlatPos :=
  l.foldr insertByPnl []

/-- One market close submitted by `_closePositionsUntilTarget`. -/
structure CloseOrder where
  exchange : String
  symbol : String
  side : OrderSide
  qty : ℚ
  deriving DecidableEq

/-- `_closePositionsUntilTarget(positions, targetUsd)`: walk the sorted
list; stop when `remaining ≤ 0`; close
`min(size, remaining / markPrice)` on the side opposite the position
and subtract the closed notional.  (The source swallows per-close
errors and keeps going; closes are assumed to succeed here, which is
the only path any claim quantifies over.) -/
def closePositionsUntilTarget : List FlatPos → ℚ → List CloseOrder
  | [], _ => []
  | p :: ps, remaining =>
    if remaining ≤ 0 then []
    else
      let closeSize := decMin p.size (remaining / p.markPrice)
      { exchange := p.exchange, symbol := p.symbol,
        side := if p.side = PosSide.long then OrderSide.sell else OrderSide.buy,
        qty := closeSize } ::
        closePositionsUntilTarget ps (remaining - closeSize * p.markPrice)

/-- `_reduceExposure()`:  pick the side matching the sign of the stored
exposure, flatten and filter the positions, sort ascending by
unrealized PnL, compute
`targetReduction = exposure.abs() − maxExposure × 0.8`, then evaluate
`targetReduction.mul(this._getTotalPortfolioValue())` — again with the
un-awaited `Promise` as argument, so the multiplication throws before
`_closePositionsUntilTarget` is ever reached; the `catch` block only
emits an error event. -/
def reduceExposure (emergencyStop : Bool) (exposure maxExposure : ℚ)
    (positions : PositionsByExchange) : Except JsError (List CloseOrder) :=
  if emergencyStop then .ok []
  else
    let reduceSide := if exposure > 0 then PosSide.long else PosSide.short
    let sortedPositions :=
      sortByPnl ((flattenPositions positions).filter
        (fun p => p.side = reduceSide))
    let targetReduction := decAbs exposure - maxExposure * (8/10)
    match decimalOpOnPromise targetReduction with
    | .error e => .error e
    | .ok usdToReduce => .ok (closePositionsUntilTarget sortedPositions usdToReduce)

/-! ## Adapter balance lookup (`getBalance` / `getTotalBalance` /
`getAvailableBalance`) -/

/-- One element of the array returned by `client.balance()`. -/
structure BalanceItem where
  asset : String
  balance : ℚ
  availableBalance : ℚ
  deriving DecidableEq

/-- The predicate of
`balance.find(item => item.asset === this.config.tradeAsset || 'USDT')`
(the same expression appears in `BinanceAdapter.getBalance` and in
`BinanceHedgeAdapter.getTotalBalance` / `getAvailableBalance`).  By
JavaScript precedence this parses as
`(item.asset === tradeAsset) || 'USDT'`; the second operand is the
non-empty string literal `'USDT'`, which is truthy, so the whole
predicate is truthy for every item. -/
def balanceAssetPred (tradeAsset : String) (item : BalanceItem) : Bool :=
  (item.asset == tradeAsset) || ("USDT" != "")

/-- `getTotalBalance()`: `find` with the predicate above, then read
`.balance`; `none` models the `TypeError` of reading a field of
`undefined` when the venue reports no assets at all. -/
def getTotalBalance (tradeAsset : String) (balance : List BalanceItem) :
    Option ℚ :=
  (balance.find? (balanceAssetPred tradeAsset)).map (fun item => item.balance)

/-- `getAvailableBalance()`: same lookup, reading `.availableBalance`. -/
def getAvailableBalance (tradeAsset : String) (balance : List BalanceItem) :
    Option ℚ :=
  (balance.find? (balanceAssetPred tradeAsset)).map
    (fun item => item.availableBalance)

/-! ## HedgeControls: construction and hedge table -/

/-- An entry of `this.activeHedges` (only the `status` string matters to
the control flow embedded here). -/
structure HedgeRec where
  status : String
  deriving DecidableEq

/-- The fields of a `HedgeControls` instance assigned in its
constructor, plus `activeHedges`, which the constructor never
initializes — embedded as `Option`, with `none` playing the role of
`undefined`. -/
structure HCState where
  positions : List (String × List (String × PosData))
  exposure : ℚ
  pnlDaily : ℚ
  pnlTotal : ℚ
  volatility : ℚ
  isHedgingActive : Bool
  emergencyStop : Bool
  activeHedges : Option (List (String × HedgeRec))

/-- The state produced by `HedgeControls`'s constructor: `positions`,
`exposure`, `pnl`, `riskParams` and the two flags are assigned;
`this.activeHedges` is not, so it is `undefined` (`none`). -/
def hcConstructorState : HCState :=
  { positions := [], exposure := 0, pnlDaily := 0, pnlTotal := 0,
    volatility := 0, isHedgingActive := false, emergencyStop := false,
    activeHedges := none }

/-- An opportunity handed to `HedgeControls._executeHedge` by
`_findBestHedgeOpportunity`. -/
structure HCOpp where
  symbol : String
  longExchange : String
  longPrice : ℚ
  shortExchange : String
  shortPrice : ℚ
  deriving DecidableEq

/-- Oracle for the adapter calls `HedgeControls._executeHedge` makes. -/
structure HCEnv where
  availableBalance : String → ℚ
  orderOk : String → String → OrderSide → ℚ → Bool

/-- `_calculateHedgeSize(opportunity)`:
`min(longBalance / longPrice, shortBalance / shortPrice) × 0.1`,
rounded with `toDecimalPlaces(8)`. -/
def hcCalculateHedgeSize (env : HCEnv) (opp : HCOpp) : ℚ :=
  let maxLongSize := env.availableBalance opp.longExchange / opp.longPrice
  let maxShortSize := env.availableBalance opp.shortExchange / opp.shortPrice
  truncDp8 (decMin maxLongSize maxShortSize * (1/10))

/-- `HedgeControls._executeHedge(opportunity)`.  The first statement
that touches instance state reads `this.activeHedges[key]`; when the
field was never created this is a property read on `undefined` and
throws `TypeError` before any balance query or order.  When the table
exists: return silently if the key is present, otherwise store an
`'opening'` record, size the hedge, submit both legs via `Promise.all`,
and store `'active'` on success or `'failed'` (with a `hedgeFailed`
event carrying only the key and the error message) on any leg
rejection — no close order and no retry in the `catch`. -/
def hcExecuteHedge (env : HCEnv) (st : HCState) (opp : HCOpp) :
    List AdapterCall × Except JsError HCState :=
  match st.activeHedges with
  | none => ([], .error .typeError)
  | some hedges =>
    let key := hedgeKey opp.symbol opp.longExchange opp.shortExchange
    if (alGet hedges key).isSome then ([], .ok st)
    else
      let hedges1 := alSet hedges key { status := "opening" }
      let calls1 := [AdapterCall.getAvailableBalance opp.longExchange,
                     AdapterCall.getAvailableBalance opp.shortExchange]
      let size := hcCalculateHedgeSize env opp
      let calls2 := calls1 ++
        [AdapterCall.createOrder opp.longExchange opp.symbol .buy size,
         AdapterCall.createOrder opp.shortExchange opp.symbol .sell size]
      if env.orderOk opp.longExchange opp.symbol .buy size &&
         env.orderOk opp.shortExchange opp.symbol .sell size then
        (calls2,
         .ok { st with activeHedges := some (alSet hedges1 key { status := "active" }) })
      else
        (calls2,
         .ok { st with activeHedges := some (alSet hedges1 key { status := "failed" }) })

/-- `_monitorActiveHedges()` begins with
`Object.entries(this.activeHedges)`, a `TypeError` when the field is
`undefined`; otherwise it iterates, skipping every hedge whose status
is not `'active'` (the per-hedge monitoring body needs the price
oracle and is not relied on by any claim, so the embedding returns the
keys that would be monitored). -/
def hcMonitorActiveHedges (st : HCState) : Except JsError (List String) :=
  match st.activeHedges with
  | none => .error .typeError
  | some hedges =>
    .ok ((hedges.filter (fun h => h.2.status == "active")).map (fun h => h.1))

/-- The record returned by `getStatus()`. -/
structure HCStatusReport where
  active : Bool
  emergencyStop : Bool
  exposure : ℚ
  pnlDaily : ℚ
  pnlTotal : ℚ
  activeHedgeCount : ℕ
  volatility : ℚ
  deriving DecidableEq

/-- `getStatus()`: reads `Object.keys(this.activeHedges).length`, a
`TypeError` when the field is `undefined`. -/
def hcGetStatus (st : HCState) : Except JsError HCStatusReport :=
  match st.activeHedges with
  | none => .error .typeError
  | some hedges =>
    .ok { active := st.isHedgingActive, emergencyStop := st.emergencyStop,
          exposure := st.exposure, pnlDaily := st.pnlDaily,
          pnlTotal := st.pnlTotal, activeHedgeCount := hedges.length,
          volatility := st.volatility }

/-! ## Concrete scenario inputs -/

/-- Scenario of spec S2: every venue reports available balance 1000 and
mark price 50000, and every market order fills. -/
def demoEnv : Env := fun _ =>
  { available := 1000, price := fun _ => 50000, orderOk := fun _ _ _ => true }

/-- Scenario of spec S4: balances and prices as in S2, but every `sell`
on venue `Y` is rejected by the exchange, so the buy leg fills and the
sell leg fails. -/
def partialFillEnv : Env := fun name =>
  { available := 1000, price := fun _ => 50000,
    orderOk := fun _ side _ => !(name == "Y" && side == OrderSide.sell) }

/-- The funding rates of spec S2: venue X at −0.001, venue Y at +0.0015
for one symbol. -/
def s2Rates : List (String × ℚ) :=
  [("X", -1/1000), ("Y", 3/2000)]

/-- A portfolio with one long and one short position, used to evaluate
the net-exposure computation: 2 × 30000 long and 10 × 2000 short. -/
def c3DemoPositions : PositionsByExchange :=
  [("X", [("BTCUSDT", { side := PosSide.long, size := 2, markPrice := 30000,
                        unrealizedPnl := 0 }),
          ("ETHUSDT", { side := PosSide.short, size := 10, markPrice := 2000,
                        unrealizedPnl := 0 })])]

/-- Scenario of spec S6: three long positions on venue X with
unrealized PnL −50 (A), +30 (B) and −10 (C). -/
def s6Positions : PositionsByExchange :=
  [("X", [("A", { side := PosSide.long, size := 1, markPrice := 100,
                  unrealizedPnl := -50 }),
          ("B", { side := PosSide.long, size := 1, markPrice := 100,
                  unrealizedPnl := 30 }),
          ("C", { side := PosSide.long, size := 1, markPrice := 100,
                  unrealizedPnl := -10 })])]

/-- A venue balance response that lists another asset before the
configured quote asset: BTC first, then USDT. -/
def c9Balance : List BalanceItem :=
  [{ asset := "BTC", balance := 2, availableBalance := 2 },
   { asset := "USDT", balance := 1000, availableBalance := 900 }]

/-- 201 funding observations for one symbol, one more than the default
history cap of 200. -/
def manyObs : List RateInfo :=
  (List.range 201).map (fun _ => { symbol := "BTCUSDT", rate := 0 })

/-! ## Helper lemmas -/

theorem decMin_eq_min (a b : ℚ) : decMin a b = min a b := by
  simp [decMin, min_def]

theorem decAbs_eq_abs (x : ℚ) : decAbs x = |x| := by
  rcases lt_or_le x 0 with h | h
  · simp [decAbs, h, abs_of_neg h]
  · simp [decAbs, not_lt.mpr h, abs_of_nonneg h]

theorem alGet_cons {α : Type} (q : String × α) (ps : List (String × α))
    (k : String) :
    alGet (q :: ps) k = if q.1 == k then some q.2 else alGet ps k := by
  by_cases hq : q.1 == k
  · simp [alGet, List.find?, hq]
  · simp [alGet, List.find?, hq]

theorem alGet_alSet {α : Type} (l : List (String × α)) (k : String) (v : α) :
    alGet (alSet l k v) k = some v := by
  induction l with
  | nil => simp [alSet, alGet_cons]
  | cons p ps ih =>
    by_cases hp : p.1 == k
    · simp [alSet, hp, alGet_cons]
    · simp [alSet, hp, alGet_cons, ih]

theorem alGet_alSet_of_ne {α : Type} (l : List (String × α)) {k k' : String}
    (h : k' ≠ k) (v : α) : alGet (alSet l k v) k' = alGet l k' := by
  have hkk : (k == k') = false := by
    simp only [beq_eq_false_iff_ne]
    exact fun e => h e.symm
  induction l with
  | nil => simp [alSet, alGet_cons, hkk, alGet]
  | cons p ps ih =>
    by_cases hp : p.1 == k
    · have hpk : p.1 = k := by simpa using hp
      simp [alSet, hp, alGet_cons, hpk, hkk]
    · simp [alSet, hp, alGet_cons, ih]

theorem history_of_foldl (cfg : Thresholds) (ex : String)
    (infos : List RateInfo) :
    ∀ acc : MonitorState × List Alert × Bool,
      ((infos.foldl (processOne cfg ex) acc).1).history =
        acc.1.history ++
          infos.map (fun i => { exchange := ex, symbol := i.symbol,
                                rate := i.rate }) := by
  induction infos with
  | nil => intro acc; simp
  | cons i is ih =>
    intro acc
    rw [List.foldl_cons, ih]
    simp [processOne]

/-! ## Claim theorems -/

/-- C1: at the S2 rates (X at −0.001, Y at +0.0015, spread 0.0025 above
the 0.002 threshold) the scan emits an alert whose `longExchange` is the
maximum-rate venue Y — not the minimum-rate venue X, which
`_findMinRate` identifies — and the auto-hedge then buys on Y and sells
on X, the opposite of what the claim states; moreover the code's own
funding-PnL formula `(shortRate − longRate)` is negative for the venues
it chose, so every hedge opened this way pays funding on both legs. -/
theorem arbitrage_long_venue_is_max_rate_venue :
    checkArbitrageForSymbol defaultThresholds "BTCUSDT" s2Rates =
      some { symbol := "BTCUSDT", longExchange := "Y", longRate := 3/2000,
             shortExchange := "X", shortRate := -1/1000, spread := 1/400 } ∧
    (findMinRate s2Rates).1 = "X" ∧
    (executeHedge demoEnv emptyMonitorState "BTCUSDT" "Y" "X").2 =
      [AdapterCall.getBalance "Y", AdapterCall.getBalance "X",
       AdapterCall.getPrice "Y" "BTCUSDT", AdapterCall.getPrice "X" "BTCUSDT",
       AdapterCall.createOrder "Y" "BTCUSDT" OrderSide.buy (1/100),
       AdapterCall.createOrder "X" "BTCUSDT" OrderSide.sell (1/100)] ∧
    hedgeFundingPnlRate (3/2000) (-1/1000) < 0 := by
  refine ⟨?_, ?_, ?_, ?_⟩
  · norm_num [checkArbitrageForSymbol, findMaxRate, findMinRate,
      defaultThresholds, s2Rates]
  · norm_num [findMinRate, s2Rates]
  · norm_num [executeHedge, demoEnv, hedgeKey, emptyMonitorState, alGet,
      alSet, truncDp8, decMin]
  · norm_num [hedgeFundingPnlRate]

/-- C4: whenever the hedge key is already present in `positionStatus`
(with any stored value — every stored value is truthy), `_executeHedge`
returns immediately: the monitor state is unchanged and no adapter call
(balance, price, order) is made. -/
theorem executeHedge_idempotent (env : Env) (st : MonitorState)
    (symbol lEx sEx : String) (v : PosStatus)
    (hpresent : alGet st.positionStatus (hedgeKey symbol lEx sEx) = some v) :
    executeHedge env st symbol lEx sEx = (st, []) := by
  simp [executeHedge, hpresent]

/-- Witness for C4: after a first successful open of the S2 opportunity
the key holds the opened record, and immediately re-running
`_executeHedge` on the same opportunity leaves the state untouched and
makes no adapter call (in particular, no new order). -/
theorem executeHedge_idempotent_witness :
    alGet (executeHedge demoEnv emptyMonitorState "BTCUSDT" "X" "Y").1.positionStatus
        (hedgeKey "BTCUSDT" "X" "Y") =
      some (PosStatus.opened "X" "Y" (1/100) (1/100)) ∧
    executeHedge demoEnv (executeHedge demoEnv emptyMonitorState "BTCUSDT" "X" "Y").1
        "BTCUSDT" "X" "Y" =
      ((executeHedge demoEnv emptyMonitorState "BTCUSDT" "X" "Y").1, []) := by
  have h1 : alGet (executeHedge demoEnv emptyMonitorState "BTCUSDT" "X" "Y").1.positionStatus
      (hedgeKey "BTCUSDT" "X" "Y") =
      some (PosStatus.opened "X" "Y" (1/100) (1/100)) := by
    norm_num [executeHedge, demoEnv, hedgeKey, emptyMonitorState, alGet,
      alSet, truncDp8, decMin]
  exact ⟨h1, executeHedge_idempotent demoEnv _ "BTCUSDT" "X" "Y" _ h1⟩

/-- C5: for an accepted opportunity (key not yet present), the open
sizes the hedge as `size_usd = min(long_avail, short_avail) × 0.5`
(truncated at 8 decimals); when `size_usd ≤ 0` it fails — the key is
marked `'failed'` and only the two balance queries happened, no order —
and otherwise it submits exactly `buy (size_usd / long_price)` on the
long venue and `sell (size_usd / short_price)` on the short venue, each
rounded down to 8 decimals. -/
theorem executeHedge_sizing (env : Env) (st : MonitorState)
    (symbol lEx sEx : String)
    (hnew : alGet st.positionStatus (hedgeKey symbol lEx sEx) = none) :
    (truncDp8 (decMin (env lEx).available (env sEx).available * (1/2)) ≤ 0 →
       (executeHedge env st symbol lEx sEx).2 =
           [AdapterCall.getBalance lEx, AdapterCall.getBalance sEx] ∧
         alGet (executeHedge env st symbol lEx sEx).1.positionStatus
           (hedgeKey symbol lEx sEx) = some PosStatus.failed) ∧
    (0 < truncDp8 (decMin (env lEx).available (env sEx).available * (1/2)) →
       (executeHedge env st symbol lEx sEx).2 =
         [AdapterCall.getBalance lEx, AdapterCall.getBalance sEx,
          AdapterCall.getPrice lEx symbol, AdapterCall.getPrice sEx symbol,
          AdapterCall.createOrder lEx symbol OrderSide.buy
            (truncDp8 (truncDp8 (decMin (env lEx).available
              (env sEx).available * (1/2)) / (env lEx).price symbol)),
          AdapterCall.createOrder sEx symbol OrderSide.sell
            (truncDp8 (truncDp8 (decMin (env lEx).available
              (env sEx).available * (1/2)) / (env sEx).price symbol))]) := by
  constructor
  · intro h
    have e1 : executeHedge env st symbol lEx sEx =
        ({ st with positionStatus := alSet (alSet st.positionStatus (hedgeKey symbol lEx sEx) PosStatus.opening) (hedgeKey symbol lEx sEx) PosStatus.failed },
         [AdapterCall.getBalance lEx, AdapterCall.getBalance sEx]) := by
      simp only [executeHedge, hnew, Option.isSome_none, Bool.false_eq_true,
        if_false, if_pos h]
    rw [e1]
    exact ⟨rfl, alGet_alSet _ _ _⟩
  · intro h
    by_cases hok : ((env lEx).orderOk symbol OrderSide.buy
        (truncDp8 (truncDp8 (decMin (env lEx).available
          (env sEx).available * (1/2)) / (env lEx).price symbol)) &&
      (env sEx).orderOk symbol OrderSide.sell
        (truncDp8 (truncDp8 (decMin (env lEx).available
          (env sEx).available * (1/2)) / (env sEx).price symbol))) = true
    · simp only [executeHedge, hnew, Option.isSome_none, Bool.false_eq_true,
        if_false, if_neg (not_le.mpr h), hok, if_true]
      rfl
    · simp only [executeHedge, hnew, Option.isSome_none, Bool.false_eq_true,
        if_false, if_neg (not_le.mpr h), hok]
      rfl

/-- Witness for C5, the S2 numbers: both balances 1000 and both mark
prices 50000 give `size_usd = 500` and a buy and a sell of quantity
0.01. -/
theorem executeHedge_sizing_witness :
    truncDp8 (decMin (demoEnv "X").available (demoEnv "Y").available * (1/2)) = 500 ∧
    (executeHedge demoEnv emptyMonitorState "BTCUSDT" "X" "Y").2 =
      [AdapterCall.getBalance "X", AdapterCall.getBalance "Y",
       AdapterCall.getPrice "X" "BTCUSDT", AdapterCall.getPrice "Y" "BTCUSDT",
       AdapterCall.createOrder "X" "BTCUSDT" OrderSide.buy (1/100),
       AdapterCall.createOrder "Y" "BTCUSDT" OrderSide.sell (1/100)] := by
  have hsize : truncDp8 (decMin (demoEnv "X").available
      (demoEnv "Y").available * (1/2)) = 500 := by
    norm_num [demoEnv, truncDp8, decMin]
  have h := (executeHedge_sizing demoEnv emptyMonitorState "BTCUSDT" "X" "Y"
      (by simp [alGet, emptyMonitorState])).2 (by rw [hsize]; norm_num)
  refine ⟨hsize, ?_⟩
  rw [h, hsize]
  norm_num [demoEnv, truncDp8]

/-- C2, counterexample: in the S4 scenario (buy on X fills, sell on Y
rejected) the open ends with the key marked `'failed'`, but the full
adapter-call trace contains no `closePosition` call and only one
submission per leg — the successful buy on X is left open, with no
reconciliation close order, no retry, and no partial-fill event. -/
theorem partial_fill_no_reconciliation :
    alGet (executeHedge partialFillEnv emptyMonitorState "BTCUSDT" "X" "Y").1.positionStatus
        (hedgeKey "BTCUSDT" "X" "Y") = some PosStatus.failed ∧
    (executeHedge partialFillEnv emptyMonitorState "BTCUSDT" "X" "Y").2 =
      [AdapterCall.getBalance "X", AdapterCall.getBalance "Y",
       AdapterCall.getPrice "X" "BTCUSDT", AdapterCall.getPrice "Y" "BTCUSDT",
       AdapterCall.createOrder "X" "BTCUSDT" OrderSide.buy (1/100),
       AdapterCall.createOrder "Y" "BTCUSDT" OrderSide.sell (1/100)] := by
  constructor
  · norm_num [executeHedge, partialFillEnv, hedgeKey, emptyMonitorState,
      alGet, alSet, truncDp8, decMin]
  · norm_num [executeHedge, partialFillEnv, hedgeKey, emptyMonitorState,
      alGet, alSet, truncDp8, decMin]

/-- C2, as amended: when at least one of the two concurrently submitted
legs is rejected, the `catch` block only stores `'failed'` for the key:
both legs were submitted exactly once (no retry), no `closePosition`
call is ever made, and the successful leg — if any — is left open. -/
theorem partial_fill_marks_failed_only (env : Env) (st : MonitorState)
    (symbol lEx sEx : String)
    (hnew : alGet st.positionStatus (hedgeKey symbol lEx sEx) = none)
    (hsize : 0 < truncDp8 (decMin (env lEx).available (env sEx).available * (1/2)))
    (hfail : ((env lEx).orderOk symbol OrderSide.buy
        (truncDp8 (truncDp8 (decMin (env lEx).available
          (env sEx).available * (1/2)) / (env lEx).price symbol)) &&
      (env sEx).orderOk symbol OrderSide.sell
        (truncDp8 (truncDp8 (decMin (env lEx).available
          (env sEx).available * (1/2)) / (env sEx).price symbol))) = false) :
    alGet (executeHedge env st symbol lEx sEx).1.positionStatus
        (hedgeKey symbol lEx sEx) = some PosStatus.failed ∧
    (executeHedge env st symbol lEx sEx).2 =
      [AdapterCall.getBalance lEx, AdapterCall.getBalance sEx,
       AdapterCall.getPrice lEx symbol, AdapterCall.getPrice sEx symbol,
       AdapterCall.createOrder lEx symbol OrderSide.buy
         (truncDp8 (truncDp8 (decMin (env lEx).available
           (env sEx).available * (1/2)) / (env lEx).price symbol)),
       AdapterCall.createOrder sEx symbol OrderSide.sell
         (truncDp8 (truncDp8 (decMin (env lEx).available
           (env sEx).available * (1/2)) / (env sEx).price symbol))] := by
  have hok : ¬ ((env lEx).orderOk symbol OrderSide.buy
      (truncDp8 (truncDp8 (decMin (env lEx).available
        (env sEx).available * (1/2)) / (env lEx).price symbol)) &&
    (env sEx).orderOk symbol OrderSide.sell
      (truncDp8 (truncDp8 (decMin (env lEx).available
        (env sEx).available * (1/2)) / (env sEx).price symbol))) = true := by
    simp only [hfail]
    decide
  constructor
  · simp only [executeHedge, hnew, Option.isSome_none, Bool.false_eq_true,
      if_false, if_neg (not_le.mpr hsize), hok]
    exact alGet_alSet _ _ _
  · simp only [executeHedge, hnew, Option.isSome_none, Bool.false_eq_true,
      if_false, if_neg (not_le.mpr hsize), hok]
    rfl

/-- Witness for the amended C2 at the S4 input: applying the theorem to
the concrete scenario in which X fills and Y rejects. -/
theorem partial_fill_marks_failed_only_witness :
    alGet (executeHedge partialFillEnv emptyMonitorState "BTC" "X" "Y").1.positionStatus
        (hedgeKey "BTC" "X" "Y") = some PosStatus.failed := by
  have h := partial_fill_marks_failed_only partialFillEnv emptyMonitorState
    "BTC" "X" "Y" (by simp [alGet, emptyMonitorState])
    (by norm_num [partialFillEnv, truncDp8, decMin])
    (by norm_num [partialFillEnv, truncDp8, decMin])
  exact h.1

/-- C6, counterexample: after ingesting 201 observations — one more
than the default cap of 200 — the monitor's history holds 201 entries:
`_processRates` only ever pushes, so nothing is evicted and the cap is
exceeded. -/
theorem history_cap_exceeded :
    200 < ((processRates defaultThresholds "binance" manyObs
      emptyMonitorState).1).history.length := by
  rw [processRates, history_of_foldl]
  simp only [manyObs, emptyMonitorState, List.length_append, List.length_map,
    List.length_range]
  norm_num

/-- C6, as amended: the funding-history buffer of the monitor is
unbounded — `_processRates` appends one entry per observation and never
evicts, so after any run the history is exactly the old history
followed by the new observations in order. -/
theorem history_append_only (cfg : Thresholds) (ex : String)
    (infos : List RateInfo) (st : MonitorState) :
    ((processRates cfg ex infos st).1).history =
      st.history ++ infos.map
        (fun i => { exchange := ex, symbol := i.symbol, rate := i.rate }) := by
  simpa [processRates] using history_of_foldl cfg ex infos (st, [], false)

/-- C8: processing one observation sets the alert counter for that
(venue, symbol) key to 0 when `|rate| ≤ warning`, to its previous value
plus one when `|rate| > warning`, and preserves non-negativity of every
counter. -/
theorem alert_counter_update (cfg : Thresholds) (st : MonitorState)
    (ex : String) (info : RateInfo) :
    (|info.rate| ≤ cfg.warning →
       countOf (processRates cfg ex [info] st).1 (alertKey ex info.symbol) = 0) ∧
    (cfg.warning < |info.rate| →
       countOf (processRates cfg ex [info] st).1 (alertKey ex info.symbol) =
         countOf st (alertKey ex info.symbol) + 1) ∧
    ((∀ k, 0 ≤ countOf st k) →
       ∀ k, 0 ≤ countOf (processRates cfg ex [info] st).1 k) := by
  have habs : decAbs info.rate = |info.rate| := decAbs_eq_abs info.rate
  refine ⟨?_, ?_, ?_⟩
  · intro h
    simp [processRates, processOne, countOf, habs, not_lt.mpr h, alGet_alSet]
  · intro h
    simp [processRates, processOne, countOf, habs, h, alGet_alSet]
  · intro hnn k
    by_cases hk : k = alertKey ex info.symbol
    · subst hk
      by_cases h : decAbs info.rate > cfg.warning
      · have hc := hnn (alertKey ex info.symbol)
        simp only [countOf] at hc
        simp [processRates, processOne, countOf, h, alGet_alSet]
        omega
      · simp [processRates, processOne, countOf, h, alGet_alSet]
    · by_cases h : decAbs info.rate > cfg.warning
      · have := hnn k
        simp [processRates, processOne, countOf, h, alGet_alSet_of_ne _ hk]
        simpa [countOf] using this
      · have := hnn k
        simp [processRates, processOne, countOf, h, alGet_alSet_of_ne _ hk]
        simpa [countOf] using this

/-- Witness for C8: a warning-level rate (0.0006) takes the fresh
counter from 0 to 1, and a benign rate (0.0004) resets it to 0. -/
theorem alert_counter_update_witness :
    countOf (processRates defaultThresholds "X"
        [{ symbol := "BTCUSDT", rate := 6/10000 }] emptyMonitorState).1
      (alertKey "X" "BTCUSDT") =
      countOf emptyMonitorState (alertKey "X" "BTCUSDT") + 1 ∧
    countOf (processRates defaultThresholds "X"
        [{ symbol := "BTCUSDT", rate := 4/10000 }] emptyMonitorState).1
      (alertKey "X" "BTCUSDT") = 0 :=
  ⟨(alert_counter_update defaultThresholds emptyMonitorState "X"
      { symbol := "BTCUSDT", rate := 6/10000 }).2.1
      (by
        show defaultThresholds.warning < |(6 : ℚ)/10000|
        rw [abs_of_nonneg (by norm_num : (0 : ℚ) ≤ 6/10000)]
        norm_num [defaultThresholds]),
   (alert_counter_update defaultThresholds emptyMonitorState "X"
      { symbol := "BTCUSDT", rate := 4/10000 }).1
      (by
        show |(4 : ℚ)/10000| ≤ defaultThresholds.warning
        rw [abs_of_nonneg (by norm_num : (0 : ℚ) ≤ 4/10000)]
        norm_num [defaultThresholds])⟩

/-- C3: `_calculateNetExposure` never yields an exposure ratio.  The
net position value is accumulated correctly (second conjunct shows the
signed sum at a concrete portfolio), but the division's argument is the
un-awaited `Promise` of `_getTotalPortfolioValue()`, so for every input
the computation throws decimal.js `Invalid argument` — no quotient, no
zero-total guard, and no value ever reaches the `RiskExceeded`
comparison. -/
theorem exposure_ratio_never_computed :
    (∀ ps : PositionsByExchange,
       calculateNetExposure ps = Except.error JsError.invalidArgument) ∧
    netPositionValue c3DemoPositions = 40000 ∧
    totalPortfolioValue [100000, 60000] = 160000 ∧
    calculateNetExposure c3DemoPositions ≠
      Except.ok (netPositionValue c3DemoPositions /
        totalPortfolioValue [100000, 60000]) := by
  refine ⟨fun ps => rfl, ?_, ?_, ?_⟩
  · norm_num [netPositionValue, c3DemoPositions]
    exact fun h => PosSide.noConfusion h
  · norm_num [totalPortfolioValue]
  · intro hcontra
    exact Except.noConfusion ((rfl :
      calculateNetExposure c3DemoPositions =
        Except.error JsError.invalidArgument) ▸ hcontra)

/-- C7: every de-risk invocation (with `emergencyStop` unset) throws
decimal.js `Invalid argument` when it multiplies the target reduction
by the un-awaited `Promise` of `_getTotalPortfolioValue()`, so no close
order is ever submitted.  The remaining conjuncts show, at the S6
positions, what `_closePositionsUntilTarget` would have done had the
multiplication not thrown: candidates sorted worst-PnL-first as
A, C, B; closes of `min(size, remaining/price)` on the opposite side
issued for A then C, stopping once the 150-USD target is consumed. -/
theorem derisk_throws_before_closing :
    (∀ (exposure maxExposure : ℚ) (ps : PositionsByExchange),
       reduceExposure false exposure maxExposure ps =
         Except.error JsError.invalidArgument) ∧
    ((sortByPnl ((flattenPositions s6Positions).filter
        (fun p => p.side = PosSide.long))).map (fun p => p.symbol)) =
      ["A", "C", "B"] ∧
    ((closePositionsUntilTarget (sortByPnl ((flattenPositions s6Positions).filter
        (fun p => p.side = PosSide.long))) 150).map
      (fun c => (c.symbol, c.side, c.qty))) =
      [("A", OrderSide.sell, 1), ("C", OrderSide.sell, 1/2)] := by
  refine ⟨fun e m ps => rfl, ?_, ?_⟩
  · norm_num [sortByPnl, insertByPnl, flattenPositions, s6Positions]
  · norm_num [sortByPnl, insertByPnl, flattenPositions, s6Positions,
      closePositionsUntilTarget, decMin]

/-- C9: with the configured trade asset "USDT" and a venue that lists
BTC before USDT, the balance lookup returns the **first** listed
asset's balance (2, the BTC figure) instead of the USDT balance (1000):
`item.asset === tradeAsset || 'USDT'` parses as
`(item.asset === tradeAsset) || 'USDT'`, whose second operand is a
truthy string, so the `find` predicate accepts every item. -/
theorem balance_lookup_ignores_asset :
    getTotalBalance "USDT" c9Balance = some 2 ∧
    getAvailableBalance "USDT" c9Balance = some 2 ∧
    (c9Balance.find? (fun item => item.asset == "USDT")).map
      (fun item => item.balance) = some 1000 ∧
    ∀ (tradeAsset : String) (item : BalanceItem),
      balanceAssetPred tradeAsset item = true := by
  refine ⟨?_, ?_, ?_, ?_⟩
  · simp [getTotalBalance, c9Balance, balanceAssetPred, List.find?]
  · simp [getAvailableBalance, c9Balance, balanceAssetPred, List.find?]
  · simp [c9Balance, List.find?]
  · intro tradeAsset item
    simp [balanceAssetPred]

/-- C10: from the state built by `HedgeControls`'s constructor —
which never initializes `this.activeHedges` — every `_executeHedge`
invocation throws a `TypeError` on `this.activeHedges[key]` before any
balance query or order (the adapter-call trace is empty), and
`_monitorActiveHedges` and `getStatus` throw the same way; no hedge can
be opened, monitored, or reported unless the field is created
externally. -/
theorem activeHedges_uninitialized_typeerror :
    (∀ (env : HCEnv) (opp : HCOpp),
       hcExecuteHedge env hcConstructorState opp =
         ([], Except.error JsError.typeError)) ∧
    hcMonitorActiveHedges hcConstructorState =
      Except.error JsError.typeError ∧
    hcGetStatus hcConstructorState = Except.error JsError.typeError :=
  ⟨fun _ _ => rfl, rfl, rfl⟩

end CryptoHedge
